import Mathlib

/-!
Shallow embedding of the yeet-tube download-tracking core
(`downloader/downloader.go` and `tui/app.go`).

Strings are modelled as `List Char` (the repository only ever manipulates
ASCII command output and URLs; Go's byte-indexed slicing coincides with
character indexing on that fragment).  Go `float64` values are modelled as
rationals (`Rat`); none of the verified properties depend on IEEE rounding.
-/

namespace YeetTube

/-- Character class of Go's regexp `\s` (ASCII: tab, newline, form feed,
carriage return, space — vertical tab is excluded by RE2). -/
def reSpace (c : Char) : Bool :=
  c = ' ' || c = '\t' || c = '\n' || c = Char.ofNat 12 || c = '\r'

/-- Character class used by Go's `strings.TrimSpace` on ASCII input
(tab through carriage return, and space). -/
def uniSpace (c : Char) : Bool :=
  c = ' ' || c = '\t' || c = '\n' || c = Char.ofNat 11 || c = Char.ofNat 12 || c = '\r'

/-- ASCII decimal digit, Go regexp `\d`. -/
def isDigitC (c : Char) : Bool :=
  '0' ≤ c && c ≤ '9'

/-- ASCII fragment of Go's `strings.ToLower`. -/
def lowerChar (c : Char) : Char :=
  if 'A' ≤ c && c ≤ 'Z' then Char.ofNat (c.toNat + 32) else c

/-- ASCII fragment of Go's `strings.ToUpper`. -/
def upperChar (c : Char) : Char :=
  if 'a' ≤ c && c ≤ 'z' then Char.ofNat (c.toNat - 32) else c

/-- Strip a literal from the front of a character list
(`none` when the literal is not a prefix). -/
def stripLit : List Char → List Char → Option (List Char)
  | [], cs => some cs
  | _ :: _, [] => none
  | l :: ls, c :: cs => if c = l then stripLit ls cs else none

/-- Boolean prefix test on character lists. -/
def isPrefixOfL : List Char → List Char → Bool
  | [], _ => true
  | _ :: _, [] => false
  | a :: as, b :: bs => a = b && isPrefixOfL as bs

/-- Go `strings.Contains`: does `sub` occur inside the second list? -/
def containsSub (sub : List Char) : List Char → Bool
  | [] => isPrefixOfL sub []
  | c :: t => isPrefixOfL sub (c :: t) || containsSub sub t

/-- Go `strings.Index`: index of the first occurrence of `sub`, `none` for -1. -/
def indexOfSub (sub : List Char) : List Char → Option Nat
  | [] => if isPrefixOfL sub [] then some 0 else none
  | c :: t =>
    if isPrefixOfL sub (c :: t) then some 0
    else (indexOfSub sub t).map (· + 1)

/-- Go `strings.TrimSpace` (ASCII fragment). -/
def trimSpace (cs : List Char) : List Char :=
  ((cs.dropWhile uniSpace).reverse.dropWhile uniSpace).reverse

/-- Numeric value of a run of decimal digits. -/
def natOfDigits (ds : List Char) : Nat :=
  ds.foldl (fun n c => 10 * n + (c.toNat - 48)) 0

/-- Powers of ten (denominator of the fractional digits). -/
def pow10 : Nat → Nat
  | 0 => 1
  | n + 1 => 10 * pow10 n

/-- Exact rational value of a captured numeral of shape `\d+(\.\d+)?`
(what Go's `strconv.ParseFloat` receives from the progress regex):
integer part plus fractional digits over the matching power of ten. -/
def ratOfNumeral (ds : List Char) : Rat :=
  let ip := ds.takeWhile isDigitC
  match ds.dropWhile isDigitC with
  | '.' :: fs =>
      mkRat ((natOfDigits ip : Int) * (pow10 fs.length : Int) + (natOfDigits fs : Int))
        (pow10 fs.length)
  | _ => mkRat (natOfDigits ip : Int) 1

/-- Try to match the regex `\[download\]\s+(\d+(?:\.\d+)?)%` anchored at the
head of the list, returning the captured numeral.  The regex is
deterministic here: every quantified class is followed by a character it
cannot match, so greedy maximal munch is equivalent to backtracking. -/
def matchPercentAt (cs : List Char) : Option (List Char) :=
  match stripLit ('[' :: "download]".data) cs with
  | none => none
  | some r1 =>
    match r1.takeWhile reSpace, r1.dropWhile reSpace with
    | [], _ => none
    | _ :: _, r2 =>
      match r2.takeWhile isDigitC, r2.dropWhile isDigitC with
      | [], _ => none
      | ds, '%' :: _ => some ds
      | ds, '.' :: r3 =>
        match r3.takeWhile isDigitC, r3.dropWhile isDigitC with
        | [], _ => none
        | fs, '%' :: _ => some (ds ++ '.' :: fs)
        | _, _ => none
      | _, _ => none

/-- Leftmost match of the download-percentage regex
(Go `Regexp.FindStringSubmatch`), returning the captured numeral. -/
def findPercent : List Char → Option (List Char)
  | [] => none
  | c :: cs =>
    match matchPercentAt (c :: cs) with
    | some ds => some ds
    | none => findPercent cs

/-- `parseProgress` (downloader.go:133-165): extract a progress fraction from
one line of yt-dlp output.  Percentage regex first; otherwise case-insensitive
substring milestones on the lowered line; otherwise the sentinel -1. -/
def parseProgress (line : List Char) : Rat :=
  match findPercent line with
  | some ds => ratOfNumeral ds / 100
  | none =>
    let l := line.map lowerChar
    if containsSub "extracting".data l || containsSub "downloading webpage".data l then 5 / 100
    else if containsSub ('[' :: "download]".data) l && containsSub "%".data l then 3 / 10
    else if containsSub "downloading video".data l then 4 / 10
    else if containsSub "downloading audio".data l then 7 / 10
    else if containsSub "merging".data l || containsSub "post-processing".data l then 9 / 10
    else if containsSub "finished".data l || containsSub "completed".data l then 1
    else -1

/-- Message sent from the downloader to the TUI (downloader.go:19-22). -/
structure ProgressFractionMsg where
  Fraction : Rat
  Line : List Char
deriving DecidableEq, Repr

/-- Outcome of one attempted run of the external fetch subprocess, as the
supervisor observes it: each constructor is one control-flow path of
`DownloadStreamWithProgress` (downloader.go:54-108). -/
inductive ExecOutcome where
  | stderrPipeErr (msg : List Char)
  | stdoutPipeErr (msg : List Char)
  | startErr (msg : List Char)
  | ran (stderrLines stdoutLines : List (List Char))
        (stderrReadErr stdoutReadErr : Option (List Char))
        (exitErr : Option (List Char))

/-- `readOutput` (downloader.go:111-130): per line, trim; skip empty lines;
otherwise emit `(parseProgress line, line)`; a scanner error appends one
`(-1, message)` event. -/
def readOutput (lines : List (List Char)) (src : List Char)
    (readErr : Option (List Char)) : List ProgressFractionMsg :=
  (lines.filterMap fun l =>
    let t := trimSpace l
    if t = [] then none else some ⟨parseProgress t, t⟩)
  ++ (match readErr with
      | some e => [⟨-1, "❌ Error reading ".data ++ src ++ ": ".data ++ e⟩]
      | none => [])

/-- Event trace of `DownloadStreamWithProgress` (downloader.go:54-108).
The two stream readers run concurrently; their events are modelled in one
fixed interleaving (stderr then stdout) — every property proved below is
insensitive to the interleaving.  The post-success metadata write
(`saveVideoInfo`, line 102) acts on the history file and is modelled
separately below. -/
def downloadEvents : ExecOutcome → List ProgressFractionMsg
  | .stderrPipeErr e => [⟨0, "❌ Error creating stderr pipe: ".data ++ e⟩]
  | .stdoutPipeErr e => [⟨0, "❌ Error creating stdout pipe: ".data ++ e⟩]
  | .startErr e => [⟨0, "❌ Error starting download: ".data ++ e⟩]
  | .ran eL oL eErr oErr exit =>
      ((readOutput eL "stderr".data eErr ++ readOutput oL "stdout".data oErr)
       ++ (match exit with
           | some e => [⟨1, "❌ Download failed: ".data ++ e⟩]
           | none => [⟨1, "✅ Variant pruned - Timeline restored!".data⟩]))
      ++ [⟨1, []⟩]

/-! ## JSON layer and the history store -/

/-- Structured values of `encoding/json`: objects are association lists
(the encoder emits distinct keys in struct order). -/
inductive Json where
  | null
  | bool (b : Bool)
  | num (q : Rat)
  | str (s : List Char)
  | arr (xs : List Json)
  | obj (fields : List (List Char × Json))

/-- Persisted metadata record (downloader.go:38-51).  `DownloadedAt`
(`time.Time`) is carried as its RFC3339 serialization. -/
structure VideoInfo where
  URL : List Char
  Title : List Char
  Duration : Rat
  Resolution : List Char
  Width : Int
  Height : Int
  FPS : Int
  VBR : Rat
  ABR : Rat
  TBR : Rat
  Filesize : Int
  DownloadedAt : List Char
deriving DecidableEq, Repr

/-- Field lookup in a JSON object. -/
def lookupJ : List (List Char × Json) → List Char → Option Json
  | [], _ => none
  | (k, v) :: rest, key => if k = key then some v else lookupJ rest key

/-- String field with Go's zero default (absent or mistyped field is left at
its zero value by `json.Unmarshal`, the type error being discarded by the
callers at downloader.go:320 and tui/app.go:401). -/
def getStrD (fs : List (List Char × Json)) (k : List Char) : List Char :=
  match lookupJ fs k with
  | some (Json.str s) => s
  | _ => []

/-- Numeric field with zero default. -/
def getNumD (fs : List (List Char × Json)) (k : List Char) : Rat :=
  match lookupJ fs k with
  | some (Json.num q) => q
  | _ => 0

/-- Integer field with zero default; a fractional number is a type error,
leaving the field at zero. -/
def getIntD (fs : List (List Char × Json)) (k : List Char) : Int :=
  match lookupJ fs k with
  | some (Json.num q) => if q.den = 1 then q.num else 0
  | _ => 0

/-- `json.Unmarshal` of one array element into a `VideoInfo` struct, with
Go's tolerant semantics: mismatched or absent fields stay zero-valued. -/
def decodeInfoGo : Json → VideoInfo
  | Json.obj fs =>
      { URL := getStrD fs "url".data
        Title := getStrD fs "title".data
        Duration := getNumD fs "duration".data
        Resolution := getStrD fs "resolution".data
        Width := getIntD fs "width".data
        Height := getIntD fs "height".data
        FPS := getIntD fs "fps".data
        VBR := getNumD fs "video_bitrate_kbps".data
        ABR := getNumD fs "audio_bitrate_kbps".data
        TBR := getNumD fs "total_bitrate_kbps".data
        Filesize := getIntD fs "filesize".data
        DownloadedAt := getStrD fs "downloaded_at".data }
  | _ => { URL := [], Title := [], Duration := 0, Resolution := [], Width := 0,
           Height := 0, FPS := 0, VBR := 0, ABR := 0, TBR := 0, Filesize := 0,
           DownloadedAt := [] }

/-- `json.Unmarshal` of the whole history file into `[]VideoInfo`: a
non-array document is a type error leaving the slice nil. -/
def decodeInfosGo : Json → List VideoInfo
  | Json.arr xs => xs.map decodeInfoGo
  | _ => []

/-- `json.Marshal` of one record, fields in struct-tag order
(downloader.go:38-51). -/
def encodeInfo (r : VideoInfo) : Json :=
  Json.obj
    [("url".data, Json.str r.URL),
     ("title".data, Json.str r.Title),
     ("duration".data, Json.num r.Duration),
     ("resolution".data, Json.str r.Resolution),
     ("width".data, Json.num (r.Width : Rat)),
     ("height".data, Json.num (r.Height : Rat)),
     ("fps".data, Json.num (r.FPS : Rat)),
     ("video_bitrate_kbps".data, Json.num r.VBR),
     ("audio_bitrate_kbps".data, Json.num r.ABR),
     ("total_bitrate_kbps".data, Json.num r.TBR),
     ("filesize".data, Json.num (r.Filesize : Rat)),
     ("downloaded_at".data, Json.str r.DownloadedAt)]

/-- `json.MarshalIndent` of the whole collection (pretty-printing abstracted
to the structured value). -/
def encodeInfos (l : List VideoInfo) : Json :=
  Json.arr (l.map encodeInfo)

/-- Content of `downloads.json`: absent, syntactically corrupt (a parse
error leaves the decoded slice untouched), or a well-formed document. -/
inductive FileData where
  | missing
  | corrupt
  | json (j : Json)

/-- `loadHistory` (tui/app.go:395-403): read failure or parse failure yields
the empty collection.  The read phase of `saveVideoInfo`
(downloader.go:318-321) has the same semantics. -/
def loadHistory : FileData → List VideoInfo
  | .missing => []
  | .corrupt => []
  | .json j => decodeInfosGo j

/-- Store-append phase of `saveVideoInfo` (downloader.go:318-327): read the
existing collection (missing/corrupt treated as empty), append, rewrite. -/
def appendVideoInfo (file : FileData) (r : VideoInfo) : FileData :=
  FileData.json (encodeInfos (loadHistory file ++ [r]))

/-- Integer truncation toward zero, Go's `int64(f)` / `int(f)` on a float. -/
def truncRat (q : Rat) : Int :=
  q.num.tdiv (q.den : Int)

/-- Metadata-extraction phase of `saveVideoInfo` (downloader.go:278-316),
applied to the decoded `--dump-json` object.  Every field except the title
is read through a comma-ok type assertion and defaults to zero; the title is
read through the unchecked assertion `raw["title"].(string)` (line 285),
which panics — modelled as `none` — whenever the field is absent or not a
string. -/
def buildVideoInfo (url now : List Char) (raw : List (List Char × Json)) :
    Option VideoInfo :=
  match lookupJ raw "title".data with
  | some (Json.str t) =>
      some { URL := url
             Title := t
             Duration := getNumD raw "duration".data
             Resolution := getStrD raw "resolution".data
             Width := (match lookupJ raw "width".data with
                       | some (Json.num q) => truncRat q
                       | _ => 0)
             Height := (match lookupJ raw "height".data with
                        | some (Json.num q) => truncRat q
                        | _ => 0)
             FPS := (match lookupJ raw "fps".data with
                     | some (Json.num q) => truncRat q
                     | _ => 0)
             VBR := getNumD raw "vbr".data
             ABR := getNumD raw "abr".data
             TBR := getNumD raw "tbr".data
             Filesize := (match lookupJ raw "filesize".data with
                          | some (Json.num q) => truncRat q
                          | _ => 0)
             DownloadedAt := now }
  | _ => none

/-! ## Title fallback and download invocation -/

/-- `extractURLName` (downloader.go:236-266): derive a fallback display name
from the URL — strip the scheme, recognize the two YouTube URL shapes and
label their video id, otherwise truncate long URLs. -/
def extractURLName (url : List Char) : List Char :=
  let url := match indexOfSub "://".data url with
             | some i => url.drop (i + 3)
             | none => url
  if containsSub "youtube.com/watch?v=".data url then
    match indexOfSub "v=".data url with
    | some i =>
      let vid := url.drop (i + 2)
      let vid := match indexOfSub "&".data vid with
                 | some j => vid.take j
                 | none => vid
      "YouTube Video: ".data ++ vid
    | none =>
      if url.length > 50 then url.take 47 ++ "...".data else url
  else if containsSub "youtu.be/".data url then
    match indexOfSub "youtu.be/".data url with
    | some i =>
      let vid := url.drop (i + 9)
      let vid := match indexOfSub "?".data vid with
                 | some j => vid.take j
                 | none => vid
      "YouTube Video: ".data ++ vid
    | none =>
      if url.length > 50 then url.take 47 ++ "...".data else url
  else
    if url.length > 50 then url.take 47 ++ "...".data else url

/-- Fixed argument vector of the external fetch subprocess
(downloader.go:56-62). -/
def downloadArgs (url : List Char) : List (List Char) :=
  ["-f".data, "bestvideo[height<=2160]+bestaudio/best".data,
   "--merge-output-format".data, "mp4".data, "--newline".data, url]

/-- The supervisor as invoked from the TUI (tui/app.go:434): the call
boundary carries the UI's format selector, but neither the command
construction nor the event stream consults it. -/
def superviseDownload (url fmt : List Char) (oc : ExecOutcome) :
    List (List Char) × List ProgressFractionMsg :=
  (downloadArgs url, downloadEvents oc)

/-! ## TUI model (tui/app.go) -/

/-- Buffered channel contents plus closed flag.  Go's buffered send inside
`select`/`default` succeeds exactly when the buffer has room (the sole
receiver never blocks, so no rendezvous is possible). -/
structure ChanState where
  buf : List ProgressFractionMsg
  closed : Bool
deriving DecidableEq, Repr

/-- One queue entry (tui/app.go:19-27). -/
structure VideoDownload where
  URL : List Char
  Name : List Char
  Percent : Rat
  Log : List (List Char)
  ProgressCh : ChanState
  Done : Bool
  TitleFetched : Bool
deriving DecidableEq, Repr

/-- Top-level TUI model (tui/app.go:30-40).  `textInput` is an external
widget; only its current value is carried (typing is outside the core). -/
structure Model where
  inputValue : List Char
  status : List Char
  videoQueue : List VideoDownload
  history : List VideoInfo
  selectedIndex : Int
  windowWidth : Int
  windowHeight : Int
  hexStream : List Char
  downloadFormat : List Char
deriving DecidableEq, Repr

/-- Messages dispatched by `Update` (tui/app.go:43-51 and the
`tea.KeyMsg`/`tea.WindowSizeMsg` cases). -/
inductive Msg where
  | windowSize (w h : Int)
  | titleFetched (url title : List Char) (isErr : Bool)
  | key (k : List Char)
  | setFormat (fmt : List Char)
  | tick

/-- Commands returned by `Update` (tea.Cmd values built in app.go). -/
inductive Cmd where
  | tick
  | fetchTitle (url : List Char)
  | startDownload (url fmt : List Char)
  | quit
deriving DecidableEq, Repr

/-- `truncateString` (tui/app.go:379-384). -/
def truncateString (s : List Char) (maxLen : Nat) : List Char :=
  if s.length ≤ maxLen then s else s.take (maxLen - 3) ++ "...".data

/-- Producer side of `startDownloadCmd` (tui/app.go:434-442): a non-blocking
send into the entry's buffered (capacity 50) progress channel; when the
buffer is full the `default` branch drops the new event.  No code path
closes the channel. -/
def trySend (ch : ChanState) (m : ProgressFractionMsg) : ChanState :=
  if ch.buf.length < 50 then { ch with buf := ch.buf ++ [m] } else ch

/-- Non-blocking receive, `select`/`default` on the consumer side
(tui/app.go:159-189): `none` means the `default` branch (nothing buffered,
channel open); `some (none, _)` is a receive from a closed empty channel
(`ok = false`); `some (some m, _)` delivers a buffered event. -/
def recvNB (ch : ChanState) : Option (Option ProgressFractionMsg × ChanState) :=
  match ch.buf with
  | a :: rest => some (some a, { ch with buf := rest })
  | [] => if ch.closed then some (none, ch) else none

/-- Per-event mutation of a queue entry (tui/app.go:173-182): adopt the
fraction when non-negative; append a non-empty line to the recent log,
keeping at most the last five lines. -/
def applyEvent (vd : VideoDownload) (pm : ProgressFractionMsg) : VideoDownload :=
  let vd1 := if 0 ≤ pm.Fraction then { vd with Percent := pm.Fraction } else vd
  if pm.Line ≠ [] then
    let lg := vd1.Log ++ [pm.Line]
    { vd1 with Log := if 5 < lg.length then lg.tail else lg }
  else vd1

/-- Placeholder for the `%.1f`-formatted percentage in the status line
(decimal float formatting abstracted; no verified property inspects it). -/
def percentText (f : Rat) : List Char :=
  (toString (f * 100)).data

/-- The reconciliation loop body (tui/app.go:155-190), folded over the queue:
skip done entries; one non-blocking receive per remaining entry; a closed
channel marks the entry done, reloads the history and clamps the selection
index; a delivered event updates the entry and possibly the status line. -/
def drainLoop (file : FileData) :
    List VideoDownload → List Char → List VideoInfo → Int →
    List VideoDownload × List Char × List VideoInfo × Int
  | [], st, h, si => ([], st, h, si)
  | vd :: rest, st, h, si =>
    if vd.Done then
      let (q, st', h', si') := drainLoop file rest st h si
      (vd :: q, st', h', si')
    else
      match recvNB vd.ProgressCh with
      | none =>
        let (q, st', h', si') := drainLoop file rest st h si
        (vd :: q, st', h', si')
      | some (none, ch) =>
        let vd1 := { vd with Done := true, ProgressCh := ch }
        let st1 := "✔ ARCHIVE COMPLETE • ".data ++ vd.Name
        let h1 := loadHistory file
        let si1 := if si ≥ (h1.length : Int) then (h1.length : Int) - 1 else si
        let (q, st', h', si') := drainLoop file rest st1 h1 si1
        (vd1 :: q, st', h', si')
      | some (some pm, ch) =>
        let vd1 := applyEvent { vd with ProgressCh := ch } pm
        let st1 := if 0 < pm.Fraction ∧ pm.Fraction < 1 ∧ vd.TitleFetched then
                     "◉ ARCHIVING VARIANT: ".data ++ vd.Name ++ " [".data
                       ++ percentText pm.Fraction ++ "%]".data
                   else st
        let (q, st', h', si') := drainLoop file rest st1 h si
        (vd1 :: q, st', h', si')

/-- The `titleFetchedMsg` case (tui/app.go:90-106): the first entry with the
matching URL gets its name set — from the fetched title on success, from the
raw URL otherwise — and its title flag raised; the loop then breaks. -/
def applyTitleList :
    List VideoDownload → List Char → List Char → Bool → List Char →
    List VideoDownload × List Char
  | [], _, _, _, st => ([], st)
  | vd :: rest, url, title, isErr, st =>
    if vd.URL = url then
      if isErr = false ∧ title ≠ [] then
        let nm := truncateString (title.map upperChar) 28
        ({ vd with Name := nm, TitleFetched := true } :: rest,
         "✔ VARIANT CASE IDENTIFIED: ".data ++ nm)
      else
        let nm := truncateString (url.map upperChar) 28
        ({ vd with Name := nm, TitleFetched := true } :: rest,
         if isErr then "⚠ CASE IDENTIFICATION FAILED • USING RAW SEQUENCE".data else st)
    else
      let (q, st') := applyTitleList rest url title isErr st
      (vd :: q, st')

/-- `Update` (tui/app.go:82-196).  `file` is the current content of
`downloads.json`; `hex` stands in for the freshly generated random hex
stream.  The trailing `textInput.Update` call touches only the external
widget and is not part of the core state. -/
def update (file : FileData) (hex : List Char) (m : Model) (msg : Msg) :
    Model × List Cmd :=
  match msg with
  | .windowSize w h =>
      ({ m with windowWidth := w, windowHeight := h }, [])
  | .titleFetched url title isErr =>
      let (q, st) := applyTitleList m.videoQueue url title isErr m.status
      ({ m with videoQueue := q, status := st }, [])
  | .key k =>
      if k = "ctrl+c".data ∨ k = "esc".data then (m, [Cmd.quit])
      else if k = "m".data then
        ({ m with downloadFormat :=
             if m.downloadFormat = "mp4".data then "mp3".data else "mp4".data }, [])
      else if k = "enter".data then
        let url := trimSpace m.inputValue
        if url = [] then
          ({ m with status := "⚠ INPUT REJECTED • INVALID VARIANT SEQUENCE".data }, [])
        else
          let vd : VideoDownload :=
            { URL := url, Name := "◉ SCANNING TIMELINE...".data, Percent := 0,
              Log := [], ProgressCh := { buf := [], closed := false },
              Done := false, TitleFetched := false }
          ({ m with videoQueue := m.videoQueue ++ [vd],
                    status := "✔ VARIANT SEQUENCE ACCEPTED • INITIATING CASE ANALYSIS".data,
                    inputValue := [] },
           [Cmd.fetchTitle url, Cmd.startDownload url m.downloadFormat])
      else if k = "up".data then
        ({ m with selectedIndex :=
             if m.selectedIndex > 0 then m.selectedIndex - 1 else m.selectedIndex }, [])
      else if k = "down".data then
        ({ m with selectedIndex :=
             if m.selectedIndex < (m.history.length : Int) - 1 then m.selectedIndex + 1
             else m.selectedIndex }, [])
      else (m, [])
  | .setFormat fmt =>
      let (q, st, h, si) := drainLoop file m.videoQueue m.status m.history m.selectedIndex
      ({ m with downloadFormat := fmt, hexStream := hex, videoQueue := q,
                status := st, history := h, selectedIndex := si },
       [Cmd.tick])
  | .tick => (m, [])

/-! ## Concrete fixtures used by witnesses and counterexamples -/

/-- The stream-end event emitted at downloader.go:106. -/
def streamEndMsg : ProgressFractionMsg := ⟨1, []⟩

/-- A pending queue entry whose progress channel holds the stream-end event. -/
def demoEntry : VideoDownload :=
  { URL := "https://youtu.be/abc123?t=5".data, Name := "DEMO".data, Percent := 1 / 2,
    Log := [], ProgressCh := { buf := [streamEndMsg], closed := false },
    Done := false, TitleFetched := true }

/-- A model with the single pending entry `demoEntry`. -/
def demoModel : Model :=
  { inputValue := [], status := [], videoQueue := [demoEntry], history := [],
    selectedIndex := 0, windowWidth := 120, windowHeight := 40, hexStream := [],
    downloadFormat := "mp4".data }

/-! ## Helper lemmas -/

theorem trySend_length_le (ch : ChanState) (pm : ProgressFractionMsg)
    (h : ch.buf.length ≤ 50) : (trySend ch pm).buf.length ≤ 50 := by
  unfold trySend
  split
  · simp only [List.length_append, List.length_cons, List.length_nil]
    omega
  · exact h

theorem foldl_trySend_le (msgs : List ProgressFractionMsg) (ch : ChanState)
    (h : ch.buf.length ≤ 50) : (msgs.foldl trySend ch).buf.length ≤ 50 := by
  induction msgs generalizing ch with
  | nil => exact h
  | cons a t ih => exact ih _ (trySend_length_le ch a h)

theorem digit_not_reSpace (c : Char) (h : isDigitC c = true) : reSpace c = false := by
  unfold isDigitC at h
  rw [Bool.and_eq_true, decide_eq_true_eq, decide_eq_true_eq] at h
  unfold reSpace
  simp only [Bool.or_eq_false_iff, decide_eq_false_iff_not]
  refine ⟨⟨⟨⟨?_, ?_⟩, ?_⟩, ?_⟩, ?_⟩ <;>
    · intro he
      rw [he] at h
      exact absurd h (by decide)

theorem stripLit_self (l rest : List Char) : stripLit l (l ++ rest) = some rest := by
  induction l with
  | nil => rfl
  | cons a t ih => simp [stripLit, ih]

theorem takeWhile_all_append (p : Char → Bool) (l : List Char) (x : Char) (r : List Char)
    (hl : l.all p = true) (hx : p x = false) :
    (l ++ x :: r).takeWhile p = l ∧ (l ++ x :: r).dropWhile p = x :: r := by
  induction l with
  | nil => simp [List.takeWhile_cons, List.dropWhile_cons, hx]
  | cons a t ih =>
    rw [List.all_cons, Bool.and_eq_true] at hl
    have h2 := ih hl.2
    simp [List.takeWhile_cons, List.dropWhile_cons, hl.1, h2.1, h2.2]

/-- Structural form of the percentage rule: the embedded regex matches any
line that begins with the marker, one space and a digit run followed by a
percent sign, whatever the suffix contains. -/
theorem matchPercentAt_download_line (ds suffix : List Char)
    (hne : ds ≠ []) (hds : ds.all isDigitC = true) :
    matchPercentAt ("[download] ".data ++ ds ++ '%' :: suffix) = some ds := by
  obtain ⟨d, ds', rfl⟩ : ∃ d ds', ds = d :: ds' := by
    cases ds with
    | nil => exact absurd rfl hne
    | cons d ds' => exact ⟨d, ds', rfl⟩
  have hline : "[download] ".data ++ (d :: ds') ++ '%' :: suffix
      = ('[' :: "download]".data) ++ (' ' :: ((d :: ds') ++ '%' :: suffix)) := rfl
  have hd : isDigitC d = true := by
    rw [List.all_cons, Bool.and_eq_true] at hds
    exact hds.1
  have hdigits : ((d :: ds') ++ '%' :: suffix).takeWhile isDigitC = d :: ds' ∧
      ((d :: ds') ++ '%' :: suffix).dropWhile isDigitC = '%' :: suffix :=
    takeWhile_all_append isDigitC (d :: ds') '%' suffix hds (by decide)
  have hsd : reSpace d = false := digit_not_reSpace d hd
  have hsp1 : (' ' :: ((d :: ds') ++ '%' :: suffix)).takeWhile reSpace = [' '] := by
    rw [List.takeWhile_cons_of_pos (by decide), List.cons_append,
        List.takeWhile_cons_of_neg (by rw [hsd]; exact Bool.false_ne_true)]
  have hsp2 : (' ' :: ((d :: ds') ++ '%' :: suffix)).dropWhile reSpace
      = (d :: ds') ++ '%' :: suffix := by
    rw [List.dropWhile_cons_of_pos (by decide), List.cons_append,
        List.dropWhile_cons_of_neg (by rw [hsd]; exact Bool.false_ne_true)]
  have hstrip := stripLit_self ('[' :: "download]".data)
      (' ' :: ((d :: ds') ++ '%' :: suffix))
  rw [hline]
  simp only [matchPercentAt, hstrip, hsp1, hsp2, hdigits.1, hdigits.2]

theorem parseProgress_download_line (ds suffix : List Char)
    (hne : ds ≠ []) (hds : ds.all isDigitC = true) :
    parseProgress ("[download] ".data ++ ds ++ '%' :: suffix)
      = ratOfNumeral ds / 100 := by
  have hm : findPercent ("[download] ".data ++ ds ++ '%' :: suffix) = some ds := by
    have : "[download] ".data ++ ds ++ '%' :: suffix
        = '[' :: ("download] ".data ++ ds ++ '%' :: suffix) := rfl
    rw [this]
    unfold findPercent
    rw [← this, matchPercentAt_download_line ds suffix hne hds]
  unfold parseProgress
  rw [hm]

theorem applyEvent_preserves (vd : VideoDownload) (pm : ProgressFractionMsg) :
    (applyEvent vd pm).ProgressCh = vd.ProgressCh ∧
    (applyEvent vd pm).Done = vd.Done := by
  unfold applyEvent
  split <;> split <;> simp_all

theorem applyTitleList_preserves (url title : List Char) (isErr : Bool) :
    ∀ (q : List VideoDownload) (st : List Char),
      (∀ vd ∈ q, vd.ProgressCh.closed = false ∧ vd.Done = false) →
      ∀ vd ∈ (applyTitleList q url title isErr st).1,
        vd.ProgressCh.closed = false ∧ vd.Done = false
  | [], _, _ => by intro vd hv; cases hv
  | a :: t, st, hq => by
    intro vd hv
    unfold applyTitleList at hv
    by_cases hu : a.URL = url
    · rw [if_pos hu] at hv
      by_cases hb : isErr = false ∧ title ≠ []
      · rw [if_pos hb] at hv
        rw [List.mem_cons] at hv
        rcases hv with hv | hv
        · subst hv
          exact hq a (by simp)
        · exact hq vd (by simp [hv])
      · rw [if_neg hb] at hv
        rw [List.mem_cons] at hv
        rcases hv with hv | hv
        · subst hv
          exact hq a (by simp)
        · exact hq vd (by simp [hv])
    · rw [if_neg hu] at hv
      rw [List.mem_cons] at hv
      rcases hv with hv | hv
      · subst hv
        exact hq vd (by simp)
      · exact applyTitleList_preserves url title isErr t st
          (fun x hx => hq x (by simp [hx])) vd hv

theorem drainLoop_entries_stay_open (file : FileData) :
    ∀ (q : List VideoDownload) (st : List Char) (h : List VideoInfo) (si : Int),
      (∀ vd ∈ q, vd.ProgressCh.closed = false ∧ vd.Done = false) →
      ∀ vd ∈ (drainLoop file q st h si).1,
        vd.ProgressCh.closed = false ∧ vd.Done = false
  | [], _, _, _, _ => by intro vd hv; cases hv
  | a :: t, st, h, si, hq => by
    intro vd hv
    have ha := hq a (by simp)
    have ht : ∀ x ∈ t, x.ProgressCh.closed = false ∧ x.Done = false :=
      fun x hx => hq x (by simp [hx])
    unfold drainLoop at hv
    rw [if_neg (by simp [ha.2])] at hv
    rcases hbuf : a.ProgressCh.buf with _ | ⟨pm, rest⟩
    · have hr : recvNB a.ProgressCh = none := by
        unfold recvNB
        rw [hbuf, ha.1]
        rfl
      rw [hr] at hv
      rw [List.mem_cons] at hv
      rcases hv with hv | hv
      · subst hv
        exact ha
      · exact drainLoop_entries_stay_open file t st h si ht vd hv
    · have hr : recvNB a.ProgressCh
          = some (some pm, { a.ProgressCh with buf := rest }) := by
        unfold recvNB
        rw [hbuf]
      rw [hr] at hv
      rw [List.mem_cons] at hv
      rcases hv with hv | hv
      · subst hv
        have hp := applyEvent_preserves { a with ProgressCh := { a.ProgressCh with buf := rest } } pm
        rw [hp.1, hp.2]
        exact ⟨ha.1, ha.2⟩
      · exact drainLoop_entries_stay_open file t _ _ _ ht vd hv

/-- No message can ever complete a queue entry: as long as every entry's
channel is open (which no code path changes — see `trySend`), every entry of
the updated model still has an open channel and a false completion flag. -/
theorem update_never_completes_entry (file : FileData) (hex : List Char)
    (m : Model) (msg : Msg)
    (hq : ∀ vd ∈ m.videoQueue, vd.ProgressCh.closed = false ∧ vd.Done = false) :
    ∀ vd ∈ (update file hex m msg).1.videoQueue,
      vd.ProgressCh.closed = false ∧ vd.Done = false := by
  intro vd hv
  cases msg with
  | windowSize w h => exact hq vd hv
  | titleFetched url title isErr =>
      exact applyTitleList_preserves url title isErr m.videoQueue m.status hq vd hv
  | key k =>
      simp only [update] at hv
      by_cases h1 : k = "ctrl+c".data ∨ k = "esc".data
      · rw [if_pos h1] at hv
        exact hq vd hv
      · rw [if_neg h1] at hv
        by_cases h2 : k = "m".data
        · rw [if_pos h2] at hv
          exact hq vd hv
        · rw [if_neg h2] at hv
          by_cases h3 : k = "enter".data
          · rw [if_pos h3] at hv
            by_cases h4 : trimSpace m.inputValue = []
            · rw [if_pos h4] at hv
              exact hq vd hv
            · rw [if_neg h4] at hv
              simp only [List.mem_append, List.mem_singleton] at hv
              rcases hv with hv | hv
              · exact hq vd hv
              · subst hv
                exact ⟨rfl, rfl⟩
          · rw [if_neg h3] at hv
            by_cases h5 : k = "up".data
            · rw [if_pos h5] at hv
              exact hq vd hv
            · rw [if_neg h5] at hv
              by_cases h6 : k = "down".data
              · rw [if_pos h6] at hv
                exact hq vd hv
              · rw [if_neg h6] at hv
                exact hq vd hv
  | setFormat fmt =>
      exact drainLoop_entries_stay_open file m.videoQueue m.status m.history
        m.selectedIndex hq vd hv
  | tick => exact hq vd hv

theorem decodeInfoGo_encodeInfo (r : VideoInfo) : decodeInfoGo (encodeInfo r) = r := by
  rfl

theorem decodeInfosGo_encodeInfos : ∀ l : List VideoInfo,
    decodeInfosGo (encodeInfos l) = l
  | [] => rfl
  | a :: t => by
    have ih := decodeInfosGo_encodeInfos t
    simp only [decodeInfosGo, encodeInfos, List.map_cons] at ih ⊢
    rw [decodeInfoGo_encodeInfo a]
    exact congrArg (a :: ·) ih

/-! ## Claim theorems -/

/-- Claim C1 (refuted by the code): a tick message is dropped whole by
`update` — no queue entry is drained, the model is unchanged, and no next
tick is scheduled.  The drain-and-reschedule body sits under the
`setFormat` message (which nothing in the repository ever produces)
instead of under the tick. -/
theorem tick_message_is_dropped (file : FileData) (hex : List Char) (m : Model) :
    update file hex m Msg.tick = (m, []) ∧
    ∀ fmt, (update file hex m (Msg.setFormat fmt)).2 = [Cmd.tick] :=
  ⟨rfl, fun _ => rfl⟩

/-- Claim C2 (refuted by the code): no code path ever closes an entry's
progress channel — the producer callback only performs non-blocking sends —
so the stream-end event `(1.0, "")` is consumed as an ordinary event: the
entry's completion flag stays false, its fraction becomes 1, and the
channel stays open, still able to deliver further events. -/
theorem stream_end_does_not_complete_entry :
    (∀ ch pm, (trySend ch pm).closed = ch.closed) ∧
    ((update FileData.missing [] demoModel (Msg.setFormat "mp4".data)).1.videoQueue.map
        (fun vd => (vd.Done, vd.Percent, vd.ProgressCh.closed))
      = [(false, 1, false)]) := by
  constructor
  · intro ch pm
    unfold trySend
    split <;> rfl
  · decide

/-- Claim C3 counterexample: on the stderr-pipe-setup failure path the last
(and only) event has a non-empty line, so the empty-line end-of-stream
marker is not the last event on every execution path. -/
theorem setup_failure_last_event_not_marker :
    ((downloadEvents (ExecOutcome.stderrPipeErr "boom".data)).getLast?).map
        ProgressFractionMsg.Line ≠ some [] := by
  decide

/-- Claim C3 as amended: pipe-setup and spawn failures are reported as a
single fraction-0 event with a non-empty error message and no further
events; on every path where the subprocess was started, the event stream
ends with the empty-line marker, preceded on a failed run by the
fraction-1 error event. -/
theorem supervisor_failure_events (e : List Char)
    (eL oL : List (List Char)) (eErr oErr exitE : Option (List Char)) :
    (∃ msg, downloadEvents (ExecOutcome.stderrPipeErr e) = [⟨0, msg⟩] ∧ msg ≠ []) ∧
    (∃ msg, downloadEvents (ExecOutcome.stdoutPipeErr e) = [⟨0, msg⟩] ∧ msg ≠ []) ∧
    (∃ msg, downloadEvents (ExecOutcome.startErr e) = [⟨0, msg⟩] ∧ msg ≠ []) ∧
    (downloadEvents (ExecOutcome.ran eL oL eErr oErr exitE)).getLast? = some ⟨1, []⟩ ∧
    ((downloadEvents (ExecOutcome.ran eL oL eErr oErr (some e))).dropLast).getLast?
      = some ⟨1, "❌ Download failed: ".data ++ e⟩ := by
  refine ⟨⟨_, rfl, ?_⟩, ⟨_, rfl, ?_⟩, ⟨_, rfl, ?_⟩, ?_, ?_⟩
  · intro hc
    exact absurd (congrArg List.length hc) (by simp)
  · intro hc
    exact absurd (congrArg List.length hc) (by simp)
  · intro hc
    exact absurd (congrArg List.length hc) (by simp)
  · show ((_ ++ _) ++ [(⟨1, []⟩ : ProgressFractionMsg)]).getLast? = _
    exact List.getLast?_concat _
  · show (((_ ++ _) ++ [(⟨1, "❌ Download failed: ".data ++ e⟩ : ProgressFractionMsg)])
        ++ [(⟨1, []⟩ : ProgressFractionMsg)]).dropLast.getLast? = _
    rw [List.dropLast_concat]
    exact List.getLast?_concat _

/-- Claim C4 (refuted by the code): the metadata-persistence step reads the
title through the unchecked type assertion `raw["title"].(string)`
(downloader.go:285); a record with a missing title, or a non-string title,
makes that assertion panic and terminate the process (modelled by `none`). -/
theorem missing_title_terminates_process :
    buildVideoInfo "https://u".data "2025-01-01T00:00:00Z".data
        [("duration".data, Json.num 10)] = none ∧
    buildVideoInfo "https://u".data "2025-01-01T00:00:00Z".data
        [("title".data, Json.num 3), ("duration".data, Json.num 10)] = none :=
  ⟨rfl, rfl⟩

/-- Claim C5: whenever the download-percentage regex matches, capturing the
numeral `ds`, with value in [0,100], `parseProgress` returns exactly that
value divided by 100 — regardless of which milestone substrings the line
also contains (the percentage rule is tried first). -/
theorem percent_rule_exact_and_first (line ds : List Char)
    (h : findPercent line = some ds)
    (h0 : 0 ≤ ratOfNumeral ds) (h100 : ratOfNumeral ds ≤ 100) :
    parseProgress line = ratOfNumeral ds / 100 := by
  simp [parseProgress, h]

/-- Witness for C5 on a line that also contains two milestone substrings. -/
theorem percent_rule_exact_and_first_witness :
    parseProgress "[download]  42.5% merging finished".data = 17 / 40 := by
  have he : ratOfNumeral "42.5".data = mkRat 85 2 := by decide
  rw [percent_rule_exact_and_first "[download]  42.5% merging finished".data "42.5".data
      (by decide) (by rw [he, Rat.mkRat_eq_div]; norm_num)
      (by rw [he, Rat.mkRat_eq_div]; norm_num)]
  rw [he, Rat.mkRat_eq_div]
  norm_num

/-- Claim C6 (refuted by the code): the URL-derived fallback name is indeed
the generic label plus the embedded identifier, but on a failed title
lookup the consumer (tui/app.go:98) displays the upper-cased raw URL, not
that fallback name, even though the resolver delivered the fallback in the
message's title field. -/
theorem fallback_name_not_displayed_on_error :
    extractURLName "https://youtu.be/abc123?t=5".data = "YouTube Video: abc123".data ∧
    ((update FileData.missing [] demoModel
        (Msg.titleFetched "https://youtu.be/abc123?t=5".data
          (extractURLName "https://youtu.be/abc123?t=5".data) true)).1.videoQueue.map
        VideoDownload.Name
      = ["HTTPS://YOUTU.BE/ABC123?T=5".data]) ∧
    ("HTTPS://YOUTU.BE/ABC123?T=5".data : List Char) ≠
      truncateString ("YouTube Video: abc123".data.map upperChar) 28 := by
  refine ⟨by decide, by decide, by decide⟩

/-- Claim C7: appending two records to a missing store and loading yields
exactly those records in order, and appending to a corrupt store behaves
identically to appending to a missing (empty) store. -/
theorem history_append_order (r1 r2 r : VideoInfo) :
    loadHistory (appendVideoInfo (appendVideoInfo FileData.missing r1) r2) = [r1, r2] ∧
    appendVideoInfo FileData.corrupt r = appendVideoInfo FileData.missing r := by
  constructor
  · simp [appendVideoInfo, loadHistory, decodeInfosGo_encodeInfos]
  · rfl

/-- Claim C8: a non-full queue accepts the event at the back, a full queue
drops the newest event (the producer never blocks, both branches being
total), and any number of sends before a drain leaves at most 50 buffered
events for the consumer to observe. -/
theorem bounded_queue_drop_on_full (ch : ChanState) (pm : ProgressFractionMsg)
    (msgs : List ProgressFractionMsg) :
    (ch.buf.length < 50 → trySend ch pm = { ch with buf := ch.buf ++ [pm] }) ∧
    (50 ≤ ch.buf.length → trySend ch pm = ch) ∧
    (50 < msgs.length →
      (msgs.foldl trySend { buf := [], closed := false }).buf.length ≤ 50) := by
  refine ⟨fun h => ?_, fun h => ?_, fun _ => foldl_trySend_le _ _ (by simp)⟩
  · unfold trySend
    rw [if_pos h]
  · unfold trySend
    rw [if_neg (by omega)]

/-- Witness for C8: an empty queue accepts, a 50-element queue drops, and 51
sends leave at most 50 events. -/
theorem bounded_queue_drop_on_full_witness :
    trySend { buf := [], closed := false } streamEndMsg
        = { buf := [streamEndMsg], closed := false } ∧
    trySend { buf := List.replicate 50 streamEndMsg, closed := false } streamEndMsg
        = { buf := List.replicate 50 streamEndMsg, closed := false } ∧
    ((List.replicate 51 streamEndMsg).foldl trySend
        { buf := [], closed := false }).buf.length ≤ 50 := by
  refine ⟨(bounded_queue_drop_on_full _ streamEndMsg []).1 (by decide),
          (bounded_queue_drop_on_full _ streamEndMsg []).2.1 (by decide),
          (bounded_queue_drop_on_full { buf := [], closed := false } streamEndMsg
            (List.replicate 51 streamEndMsg)).2.2 (by decide)⟩

/-- Claim C9: a line on which the percentage regex fails and every milestone
condition is false parses to the sentinel -1, and processing any event with
a negative fraction leaves the entry's stored fraction unchanged. -/
theorem unrecognized_line_sentinel_and_frame (line : List Char)
    (hp : findPercent line = none)
    (h1 : (containsSub "extracting".data (line.map lowerChar)
           || containsSub "downloading webpage".data (line.map lowerChar)) = false)
    (h2 : (containsSub ('[' :: "download]".data) (line.map lowerChar)
           && containsSub "%".data (line.map lowerChar)) = false)
    (h3 : containsSub "downloading video".data (line.map lowerChar) = false)
    (h4 : containsSub "downloading audio".data (line.map lowerChar) = false)
    (h5 : (containsSub "merging".data (line.map lowerChar)
           || containsSub "post-processing".data (line.map lowerChar)) = false)
    (h6 : (containsSub "finished".data (line.map lowerChar)
           || containsSub "completed".data (line.map lowerChar)) = false) :
    parseProgress line = -1 ∧
    ∀ (vd : VideoDownload) (pm : ProgressFractionMsg), pm.Fraction < 0 →
      (applyEvent vd pm).Percent = vd.Percent := by
  constructor
  · simp [parseProgress, hp, h1, h2, h3, h4, h5, h6]
  · intro vd pm h
    unfold applyEvent
    rw [if_neg (not_le.mpr h)]
    split <;> rfl

/-- Witness for C9 on a line matching nothing, and an event with the -1
sentinel fraction. -/
theorem unrecognized_line_sentinel_and_frame_witness :
    parseProgress "hello world".data = -1 ∧
    (applyEvent demoEntry ⟨-1, "x".data⟩).Percent = demoEntry.Percent := by
  have h := unrecognized_line_sentinel_and_frame "hello world".data (by decide) (by decide)
      (by decide) (by decide) (by decide) (by decide) (by decide)
  exact ⟨h.1, h.2 demoEntry ⟨-1, "x".data⟩ (by decide)⟩

/-- Claim C10: two supervisor runs differing only in the selected output
format produce the identical subprocess argument vector (the fixed
best-video-capped-at-2160-plus-best-audio, mp4-merge invocation) and the
identical progress-event stream. -/
theorem format_has_no_influence (url f1 f2 : List Char) (oc : ExecOutcome) :
    superviseDownload url f1 oc = superviseDownload url f2 oc ∧
    (superviseDownload url f1 oc).1 = downloadArgs url :=
  ⟨rfl, rfl⟩

end YeetTube
